import Mathlib

/-!
Shallow embedding of the socceraction SPADL + VAEP feature/label pipeline.

The repository sources contain the notebook
`public-notebooks/2-compute-features-and-labels.ipynb`, which drives the
pipeline by calling `socceraction.spadl` (SPADL core), `socceraction.vaep.features`
(gamestate builder and feature functions) and `socceraction.vaep.labels`
(label functions).  The implementations of those library modules are not part
of the sources, so they are modelled here from the specification.
-/

namespace Spadl

/-- Modelled from the spec: the fixed SPADL action-type enumeration
(`action_type` enumerated: pass, shot, dribble, tackle, ...); the module
`socceraction.spadl` defining it is not included in the sources. -/
inductive ActionType
  | pass
  | shot
  | dribble
  | tackle
deriving DecidableEq, Repr, Inhabited

/-- Modelled from the spec: the fixed SPADL result enumeration
(`result` enumerated: success, fail, offside, own-goal, ...); the module
`socceraction.spadl` defining it is not included in the sources. -/
inductive ActResult
  | success
  | fail
  | offside
  | owngoal
deriving DecidableEq, Repr, Inhabited

/-- Modelled from the spec: the fixed SPADL bodypart enumeration
(`bodypart` enumerated: foot, head, other); the module
`socceraction.spadl` defining it is not included in the sources. -/
inductive Bodypart
  | foot
  | head
  | other
deriving DecidableEq, Repr, Inhabited

/-- Modelled from the spec: one canonical SPADL action record (section 3 of the
spec); the schema module of `socceraction.spadl` is not included in the
sources.  The optional `*_name` fields are the human-readable columns added by
`spadl.add_names`; they are absent (`none`) before name derivation. -/
structure Action where
  game_id : Nat
  period_id : Nat
  time_seconds : ℚ
  team_id : Nat
  player_id : Nat
  start_x : ℚ
  start_y : ℚ
  end_x : ℚ
  end_y : ℚ
  action_type : ActionType
  result : ActResult
  bodypart : Bodypart
  action_id : Nat
  type_name : Option String := none
  result_name : Option String := none
  bodypart_name : Option String := none
deriving DecidableEq, Repr, Inhabited

/-- Default action used as an out-of-range fallback for list lookups. -/
def dfltAction : Action := default

/-- Modelled from the spec: human-readable name of an action type
(the "derive names" lookup of `spadl.add_names`, not in the sources). -/
def actiontypeName : ActionType → String
  | ActionType.pass => "pass"
  | ActionType.shot => "shot"
  | ActionType.dribble => "dribble"
  | ActionType.tackle => "tackle"

/-- Modelled from the spec: inverse lookup from a human-readable action-type
name back to its enum code. -/
def actiontypeFromName (s : String) : Option ActionType :=
  if s = "pass" then some ActionType.pass
  else if s = "shot" then some ActionType.shot
  else if s = "dribble" then some ActionType.dribble
  else if s = "tackle" then some ActionType.tackle
  else none

/-- Modelled from the spec: human-readable name of a result code
(the "derive names" lookup of `spadl.add_names`, not in the sources). -/
def resultName : ActResult → String
  | ActResult.success => "success"
  | ActResult.fail => "fail"
  | ActResult.offside => "offside"
  | ActResult.owngoal => "owngoal"

/-- Modelled from the spec: inverse lookup from a human-readable result name
back to its enum code. -/
def resultFromName (s : String) : Option ActResult :=
  if s = "success" then some ActResult.success
  else if s = "fail" then some ActResult.fail
  else if s = "offside" then some ActResult.offside
  else if s = "owngoal" then some ActResult.owngoal
  else none

/-- Modelled from the spec: human-readable name of a bodypart code
(the "derive names" lookup of `spadl.add_names`, not in the sources). -/
def bodypartName : Bodypart → String
  | Bodypart.foot => "foot"
  | Bodypart.head => "head"
  | Bodypart.other => "other"

/-- Modelled from the spec: inverse lookup from a human-readable bodypart name
back to its enum code. -/
def bodypartFromName (s : String) : Option Bodypart :=
  if s = "foot" then some Bodypart.foot
  else if s = "head" then some Bodypart.head
  else if s = "other" then some Bodypart.other
  else none

/-- Modelled from the spec: `spadl.add_names` (not in the sources), a pure,
side-effect-free lookup adding the human-readable name columns derived from
the enum codes of an action. -/
def addNames (a : Action) : Action :=
  { a with
    type_name := some (actiontypeName a.action_type)
    result_name := some (resultName a.result)
    bodypart_name := some (bodypartName a.bodypart) }

/-- Modelled from the spec: `socceraction.vaep.features.gamestates`
(not in the sources).  One gamestate per action; the gamestate at index `i`
is the tuple of actions `[i, i-1, ..., i-nbStates+1]`, clipped at game start
by repeating the first action to pad missing history.  Truncated natural
subtraction `i - k` realises exactly that padding-by-repetition. -/
def gamestates (actions : List Action) (nbStates : Nat) : List (List Action) :=
  (List.range actions.length).map (fun i =>
    (List.range nbStates).map (fun k => actions.getD (i - k) dfltAction))

/-- Standardized pitch length (spec: default standardized pitch 105x68). -/
def pitchLength : ℚ := 105

/-- Standardized pitch width (spec: default standardized pitch 105x68). -/
def pitchWidth : ℚ := 68

/-- Modelled from the spec: coordinate mirroring used by left-to-right
normalization: both `x` and `y` of start and end location are mirrored in the
pitch rectangle. -/
def mirrorAction (a : Action) : Action :=
  { a with
    start_x := pitchLength - a.start_x
    start_y := pitchWidth - a.start_y
    end_x := pitchLength - a.end_x
    end_y := pitchWidth - a.end_y }

/-- Modelled from the spec: whether the acting team of an action attacks
rightward in the action's period.  The home team attacks rightward in odd
periods; side assignment flips at each period boundary. -/
def attacksRight (homeTeamId : Nat) (a : Action) : Bool :=
  (a.team_id == homeTeamId) == (a.period_id % 2 == 1)

/-- Per-action step of left-to-right normalization: actions of the team not
attacking rightward in that period are mirrored, the rest stay unchanged. -/
def leftToRightAction (homeTeamId : Nat) (a : Action) : Action :=
  if attacksRight homeTeamId a then a else mirrorAction a

/-- Modelled from the spec: `socceraction.vaep.features.play_left_to_right`
(not in the sources).  Mirrors the coordinates of actions belonging to the
team not attacking rightward in that period, over every frame of every
gamestate. -/
def play_left_to_right (gs : List (List Action)) (homeTeamId : Nat) : List (List Action) :=
  gs.map (fun w => w.map (leftToRightAction homeTeamId))

/-- An action that is a goal by the acting team: a shot whose registered
result is success. -/
def isGoalAct (a : Action) : Bool :=
  a.action_type == ActionType.shot && a.result == ActResult.success

/-- An action registered as an own goal (credited to the opponent). -/
def isOwnGoalAct (a : Action) : Bool :=
  a.result == ActResult.owngoal

/-- An action that changes the score: a goal or an own goal. -/
def scoringAction (a : Action) : Bool :=
  isGoalAct a || isOwnGoalAct a

/-- A goal credited to team `t`: a goal by `t` itself, or an own goal by an
opposing team (own-goals credit the benefiting team). -/
def creditsTeam (t : Nat) (a : Action) : Bool :=
  (isGoalAct a && a.team_id == t) || (isOwnGoalAct a && !(a.team_id == t))

/-- A goal credited against team `t`: a goal by an opposing team, or an own
goal by `t` itself. -/
def creditsOpp (t : Nat) (a : Action) : Bool :=
  (isGoalAct a && !(a.team_id == t)) || (isOwnGoalAct a && a.team_id == t)

/-- Goal differential for team `t` over a prefix of the game's actions:
goals credited to `t` minus goals credited against `t`. -/
def diffFor (t : Nat) (pre : List Action) : Int :=
  (pre.countP (creditsTeam t) : Int) - (pre.countP (creditsOpp t) : Int)

/-- Cumulative scan underlying `goalscore`: walks the action list carrying the
running goal counts `ga` (credited to the reference team) and `gb` (credited
against it), emitting for each action the differential for that action's
acting team over all strictly prior actions. -/
def goalscoreGo (teamA : Nat) (ga gb : Nat) : List Action → List Int
  | [] => []
  | a :: rest =>
      (if a.team_id == teamA then (ga : Int) - (gb : Int) else (gb : Int) - (ga : Int)) ::
        goalscoreGo teamA (ga + (if creditsTeam teamA a then 1 else 0))
          (gb + (if creditsOpp teamA a then 1 else 0)) rest

/-- Modelled from the spec: `socceraction.vaep.features.goalscore`
(not in the sources).  Running goal differential for the acting team
immediately before each action, computed by a cumulative scan over the game's
actions with the first action's team as reference. -/
def goalscore (actions : List Action) : List Int :=
  goalscoreGo ((actions.getD 0 dfltAction).team_id) 0 0 actions

/-- Modelled from the spec: default bounded forward window of the `scores`
and `concedes` label functions (default 10 actions). -/
def scoresWindowSize : Nat := 10

/-- Modelled from the spec: per-action value of the `scores` label
(`socceraction.vaep.labels.scores`, not in the sources): true if the acting
team scores a goal within the bounded forward window of actions after this
action, within the same game only. -/
def scoresAt (l : List Action) (i : Nat) : Bool :=
  ((l.drop (i + 1)).take scoresWindowSize).any (creditsTeam (l.getD i dfltAction).team_id)

/-- Modelled from the spec: per-action value of the `concedes` label
(`socceraction.vaep.labels.concedes`, not in the sources): mirror of
`scores` for goals credited against the acting team. -/
def concedesAt (l : List Action) (i : Nat) : Bool :=
  ((l.drop (i + 1)).take scoresWindowSize).any (creditsOpp (l.getD i dfltAction).team_id)

/-- Modelled from the spec: per-action value of the `goal_from_shot` label
(`socceraction.vaep.labels.goal_from_shot`, not in the sources): this action
is a shot whose immediate registered result is a goal; local check only. -/
def goalFromShotAt (l : List Action) (i : Nat) : Bool :=
  isGoalAct (l.getD i dfltAction)

/-- The `scores` label column of a game, index-aligned with the actions. -/
def scoresCol (l : List Action) : List Bool :=
  (List.range l.length).map (scoresAt l)

/-- Modelled from the spec: the label matrix of one game, one row per action,
with the boolean columns of `scores`, `concedes` and `goal_from_shot`. -/
def labelMatrix (l : List Action) : List (Bool × Bool × Bool) :=
  (List.range l.length).map (fun i => (scoresAt l i, concedesAt l i, goalFromShotAt l i))

/-- Numeric code of an action type (position in the fixed enumeration). -/
def typeCode : ActionType → Nat
  | ActionType.pass => 0
  | ActionType.shot => 1
  | ActionType.dribble => 2
  | ActionType.tackle => 3

/-- Numeric code of a result (position in the fixed enumeration). -/
def resultCode : ActResult → Nat
  | ActResult.success => 0
  | ActResult.fail => 1
  | ActResult.offside => 2
  | ActResult.owngoal => 3

/-- Numeric code of a bodypart (position in the fixed enumeration). -/
def bodypartCode : Bodypart → Nat
  | Bodypart.foot => 0
  | Bodypart.head => 1
  | Bodypart.other => 2

/-- 0/1 indicator as a rational feature value. -/
def indQ (b : Bool) : ℚ := if b then 1 else 0

/-- x-coordinate of the center of the target goal on the standardized pitch. -/
def goalCenterX : ℚ := pitchLength

/-- y-coordinate of the center of the target goal on the standardized pitch. -/
def goalCenterY : ℚ := pitchWidth / 2

/-- One-hot expansion of an action type over the fixed enumeration. -/
def oneHotType (t : ActionType) : List ℚ :=
  [ActionType.pass, ActionType.shot, ActionType.dribble, ActionType.tackle].map
    (fun u => indQ (t == u))

/-- One-hot expansion of a result over the fixed enumeration. -/
def oneHotResult (r : ActResult) : List ℚ :=
  [ActResult.success, ActResult.fail, ActResult.offside, ActResult.owngoal].map
    (fun u => indQ (r == u))

/-- One-hot expansion of a bodypart over the fixed enumeration. -/
def oneHotBodypart (b : Bodypart) : List ℚ :=
  [Bodypart.foot, Bodypart.head, Bodypart.other].map (fun u => indQ (b == u))

/-- Modelled from the spec: the categorical feature columns of one gamestate
frame: the raw enum codes and the one-hot expansions over the three fixed
enumerations (action type, body part, result). -/
noncomputable def catFeats (x : Action) : List ℝ :=
  [((typeCode x.action_type : ℚ) : ℝ), ((bodypartCode x.bodypart : ℚ) : ℝ),
      ((resultCode x.result : ℚ) : ℝ)]
    ++ (oneHotType x.action_type).map (fun v => (v : ℝ))
    ++ (oneHotBodypart x.bodypart).map (fun v => (v : ℝ))
    ++ (oneHotResult x.result).map (fun v => (v : ℝ))

/-- Modelled from the spec: polar coordinates of a location relative to the
center of the target goal — distance and angle. -/
noncomputable def polarFeats (x y : ℚ) : List ℝ :=
  [Real.sqrt (((goalCenterX : ℝ) - (x : ℝ)) ^ 2 + ((goalCenterY : ℝ) - (y : ℝ)) ^ 2),
    Real.arctan (abs ((goalCenterY : ℝ) - (y : ℝ)) / ((goalCenterX : ℝ) - (x : ℝ)))]

/-- Modelled from the spec: `space_delta` — distance and angle between the
previous action's end location and the current action's start location
(zero distance and zero angle when play continues from the same point). -/
noncomputable def spaceDeltaFeats (p a : Action) : List ℝ :=
  [Real.sqrt (((a.start_x : ℝ) - (p.end_x : ℝ)) ^ 2 +
      ((a.start_y : ℝ) - (p.end_y : ℝ)) ^ 2),
    Real.arctan (((a.start_y : ℝ) - (p.end_y : ℝ)) / ((a.start_x : ℝ) - (p.end_x : ℝ)))]

/-- Modelled from the spec: the per-gamestate feature row produced by the
feature-function families of section 4.3 over a window of three actions, as
in the notebook's `xfns` list: categorical codes and one-hot expansions of
the current and both previous gamestate actions, start and end location,
movement vector, `space_delta` as distance and angle, start and end polar
coordinates, same-team indicators for the previous actions, time and time
delta; the module `socceraction.vaep.features` is not in the sources. -/
noncomputable def featureRow (w : List Action) : List ℝ :=
  let a := w.getD 0 dfltAction
  let p := w.getD 1 dfltAction
  let q := w.getD 2 dfltAction
  catFeats a ++ catFeats p ++ catFeats q
    ++ [((a.start_x : ℚ) : ℝ), ((a.start_y : ℚ) : ℝ), ((a.end_x : ℚ) : ℝ),
        ((a.end_y : ℚ) : ℝ),
        ((a.end_x - a.start_x : ℚ) : ℝ), ((a.end_y - a.start_y : ℚ) : ℝ)]
    ++ spaceDeltaFeats p a
    ++ polarFeats a.start_x a.start_y ++ polarFeats a.end_x a.end_y
    ++ [((indQ (a.team_id == p.team_id) : ℚ) : ℝ),
        ((indQ (a.team_id == q.team_id) : ℚ) : ℝ),
        ((a.time_seconds : ℚ) : ℝ), ((a.time_seconds - p.time_seconds : ℚ) : ℝ)]

/-- Modelled from the spec: the feature matrix of one game, one row per
gamestate: the concatenated feature-function outputs plus the `goalscore`
column computed from the current-action frame of the gamestates. -/
noncomputable def featureMatrix (ws : List (List Action)) : List (List ℝ) :=
  (ws.zip (goalscore (ws.map (fun w => w.getD 0 dfltAction)))).map
    (fun wg => featureRow wg.1 ++ [((wg.2 : ℤ) : ℝ)])

/-- The per-game feature pipeline of the notebook: add names, build gamestates
with window 3, normalize left-to-right using the home team, then apply the
feature functions. -/
noncomputable def computeFeaturesGame (actions : List Action) (homeTeamId : Nat) :
    List (List ℝ) :=
  featureMatrix (play_left_to_right (gamestates (actions.map addNames) 3) homeTeamId)

/-- The per-game label pipeline of the notebook: add names, then apply the
label functions to the raw (non-normalized) action table. -/
def computeLabelsGame (actions : List Action) : List (Bool × Bool × Bool) :=
  labelMatrix (actions.map addNames)

/-- One full per-game iteration of the notebook: the feature matrix (which
uses the home team id for left-to-right normalization) and the label matrix
(which does not). -/
noncomputable def processGame (actions : List Action) (homeTeamId : Nat) :
    List (List ℝ) × List (Bool × Bool × Bool) :=
  (computeFeaturesGame actions homeTeamId, computeLabelsGame actions)

/-- Game metadata record (spec section 3). -/
structure Game where
  game_id : Nat
  home_team_id : Nat
  away_team_id : Nat
deriving DecidableEq, Repr, Inhabited

/-- Modelled from the spec: a provider-native raw event for one game; enum
vocabularies arrive as numeric provider codes and required fields may be
missing (`none`).  The provider converters are not in the sources. -/
structure RawEvent where
  period_id : Nat
  time_seconds : ℚ
  team_id : Nat
  player_id : Option Nat
  start_x : ℚ
  start_y : ℚ
  end_x : ℚ
  end_y : ℚ
  type_code : Nat
  result_code : Nat
  bodypart_code : Nat
deriving DecidableEq, Repr, Inhabited

/-- Modelled from the spec: the `SchemaViolation` error, identifying game id,
action index and the violated constraint. -/
structure SchemaViolation where
  game_id : Nat
  action_index : Nat
  constraintMsg : String
deriving DecidableEq, Repr, Inhabited

/-- Modelled from the spec: provider action-type vocabulary mapped onto the
fixed enumeration; unmapped codes yield `none`. -/
def typeFromCode (c : Nat) : Option ActionType :=
  if c = 0 then some ActionType.pass
  else if c = 1 then some ActionType.shot
  else if c = 2 then some ActionType.dribble
  else if c = 3 then some ActionType.tackle
  else none

/-- Modelled from the spec: provider result vocabulary mapped onto the fixed
enumeration; unmapped codes yield `none`. -/
def resultFromCode (c : Nat) : Option ActResult :=
  if c = 0 then some ActResult.success
  else if c = 1 then some ActResult.fail
  else if c = 2 then some ActResult.offside
  else if c = 3 then some ActResult.owngoal
  else none

/-- Modelled from the spec: provider bodypart vocabulary mapped onto the fixed
enumeration; unmapped codes yield `none`. -/
def bodypartFromCode (c : Nat) : Option Bodypart :=
  if c = 0 then some Bodypart.foot
  else if c = 1 then some Bodypart.head
  else if c = 2 then some Bodypart.other
  else none

/-- A coordinate pair lies within the standardized pitch bounds. -/
def coordInBounds (x y : ℚ) : Bool :=
  decide (0 ≤ x) && decide (x ≤ pitchLength) && decide (0 ≤ y) && decide (y ≤ pitchWidth)

/-- A raw event passes validation: all enum codes mapped, required player
field present, coordinates within pitch bounds. -/
def isValidEvent (e : RawEvent) : Bool :=
  (typeFromCode e.type_code).isSome && (resultFromCode e.result_code).isSome &&
    (bodypartFromCode e.bodypart_code).isSome && e.player_id.isSome &&
    coordInBounds e.start_x e.start_y && coordInBounds e.end_x e.end_y

/-- Modelled from the spec: validation and conversion of one raw event at
sorted position `i` into a canonical action, failing with a `SchemaViolation`
on an unmapped enum code, a missing required field, or an out-of-range
coordinate. -/
def convertEvent (g : Game) (i : Nat) (e : RawEvent) : Except SchemaViolation Action :=
  match typeFromCode e.type_code, resultFromCode e.result_code,
      bodypartFromCode e.bodypart_code, e.player_id with
  | some t, some r, some b, some pid =>
      if coordInBounds e.start_x e.start_y && coordInBounds e.end_x e.end_y then
        Except.ok
          { game_id := g.game_id
            period_id := e.period_id
            time_seconds := e.time_seconds
            team_id := e.team_id
            player_id := pid
            start_x := e.start_x
            start_y := e.start_y
            end_x := e.end_x
            end_y := e.end_y
            action_type := t
            result := r
            bodypart := b
            action_id := i }
      else
        Except.error
          { game_id := g.game_id
            action_index := i
            constraintMsg := "coordinate out of range" }
  | _, _, _, _ =>
      Except.error
        { game_id := g.game_id
          action_index := i
          constraintMsg := "unmapped enum code or missing required field" }

/-- Chronological (period, time) order on raw events. -/
def evBefore (e1 e2 : RawEvent) : Prop :=
  e1.period_id < e2.period_id ∨
    (e1.period_id = e2.period_id ∧ e1.time_seconds ≤ e2.time_seconds)

instance : DecidableRel evBefore := fun a b => by
  unfold evBefore
  infer_instance

instance : IsTotal RawEvent evBefore := by
  constructor
  intro a b
  unfold evBefore
  rcases Nat.lt_trichotomy a.period_id b.period_id with h | h | h
  · exact Or.inl (Or.inl h)
  · rcases le_total a.time_seconds b.time_seconds with ht | ht
    · exact Or.inl (Or.inr ⟨h, ht⟩)
    · exact Or.inr (Or.inr ⟨h.symm, ht⟩)
  · exact Or.inr (Or.inl h)

instance : IsTrans RawEvent evBefore := by
  constructor
  intro a b c hab hbc
  unfold evBefore at *
  rcases hab with h | ⟨h1, h2⟩ <;> rcases hbc with h' | ⟨h1', h2'⟩
  · exact Or.inl (Nat.lt_trans h h')
  · exact Or.inl (h1' ▸ h)
  · exact Or.inl (h1 ▸ h')
  · exact Or.inr ⟨h1.trans h1', h2.trans h2'⟩

/-- Sort the raw events of a game chronologically by (period, time). -/
def sortEvents (events : List RawEvent) : List RawEvent :=
  events.insertionSort evBefore

/-- Index-carrying conversion loop: converts each sorted event in order,
assigning consecutive `action_id` values, aborting on the first
`SchemaViolation` with no partial output. -/
def convertGo (g : Game) (i : Nat) : List RawEvent → Except SchemaViolation (List Action)
  | [] => Except.ok []
  | e :: rest =>
      match convertEvent g i e with
      | Except.error err => Except.error err
      | Except.ok a =>
          match convertGo g (i + 1) rest with
          | Except.error err => Except.error err
          | Except.ok as => Except.ok (a :: as)

/-- Modelled from the spec: `convert(rawEvents, game) -> Actions`
(spec section 4.1; the provider converters and SPADL core are not in the
sources).  Sorts the events chronologically, validates and maps each one onto
the canonical schema, and assigns `action_id` as a dense zero-based sequence
in chronological order; any `SchemaViolation` aborts the whole game's
conversion with no partial output. -/
def convert (g : Game) (events : List RawEvent) : Except SchemaViolation (List Action) :=
  convertGo g 0 (sortEvents events)

/-- Chronological (period, time) consistency relation on canonical actions. -/
def actionChron (a b : Action) : Prop :=
  a.period_id < b.period_id ∨
    (a.period_id = b.period_id ∧ a.time_seconds ≤ b.time_seconds)

/-- A concrete successful pass by team `t` at index `i`, for evaluating the
definitions on small games. -/
def exPass (t : Nat) (i : Nat) : Action :=
  { game_id := 1
    period_id := 1
    time_seconds := (i : ℚ)
    team_id := t
    player_id := 7
    start_x := 50
    start_y := 30
    end_x := 60
    end_y := 40
    action_type := ActionType.pass
    result := ActResult.success
    bodypart := Bodypart.foot
    action_id := i }

/-- A concrete goal (successful shot) by team `t` at index `i`, for evaluating
the definitions on small games. -/
def exGoal (t : Nat) (i : Nat) : Action :=
  { game_id := 1
    period_id := 1
    time_seconds := (i : ℚ)
    team_id := t
    player_id := 9
    start_x := 90
    start_y := 34
    end_x := 105
    end_y := 34
    action_type := ActionType.shot
    result := ActResult.success
    bodypart := Bodypart.foot
    action_id := i }

/-- A concrete valid raw event at time `s` in period `p`. -/
def exEvent (p : Nat) (s : ℚ) : RawEvent :=
  { period_id := p
    time_seconds := s
    team_id := 10
    player_id := some 7
    start_x := 50
    start_y := 30
    end_x := 60
    end_y := 40
    type_code := 0
    result_code := 0
    bodypart_code := 0 }

/-- A concrete invalid raw event: its action-type code is unmapped. -/
def exBadEvent : RawEvent :=
  { period_id := 1
    time_seconds := 5
    team_id := 10
    player_id := some 7
    start_x := 50
    start_y := 30
    end_x := 60
    end_y := 40
    type_code := 99
    result_code := 0
    bodypart_code := 0 }

/-- A concrete game metadata record. -/
def exGame : Game :=
  { game_id := 1, home_team_id := 10, away_team_id := 20 }

/-- The canonical action produced from `exEvent 1 s` at sorted index `i`. -/
def exConvertedAction (s : ℚ) (i : Nat) : Action :=
  { game_id := 1
    period_id := 1
    time_seconds := s
    team_id := 10
    player_id := 7
    start_x := 50
    start_y := 30
    end_x := 60
    end_y := 40
    action_type := ActionType.pass
    result := ActResult.success
    bodypart := Bodypart.foot
    action_id := i }

/-- The expected conversion output of the two events `exEvent 1 2` and
`exEvent 1 1` (chronologically out of order in the input). -/
def exConverted : List Action :=
  [exConvertedAction 1 0, exConvertedAction 2 1]

@[simp]
theorem length_gamestates (actions : List Action) (nbStates : Nat) :
    (gamestates actions nbStates).length = actions.length := by
  simp [gamestates]

theorem getD_gamestates (actions : List Action) (nbStates : Nat) (i : Nat)
    (hi : i < actions.length) :
    (gamestates actions nbStates).getD i [] =
      (List.range nbStates).map (fun k => actions.getD (i - k) dfltAction) := by
  have hlen : i < (gamestates actions nbStates).length := by
    simpa using hi
  rw [List.getD_eq_getElem _ _ hlen]
  simp [gamestates]

/-- C1: `gamestates(actions, nbStates)` returns exactly one gamestate per
input action; the gamestate at index `i` has exactly `nbStates` entries, and
its `k`-th entry is action `i - k`, where truncated subtraction repeats the
first action to pad missing history before the start of the game — so also a
game shorter than the window yields a fully padded gamestate for every
action. -/
theorem gamestates_correct (actions : List Action) (nbStates : Nat) :
    (gamestates actions nbStates).length = actions.length ∧
    ∀ i, i < actions.length →
      ((gamestates actions nbStates).getD i []).length = nbStates ∧
      ∀ k, k < nbStates →
        ((gamestates actions nbStates).getD i []).getD k dfltAction =
          actions.getD (i - k) dfltAction := by
  refine ⟨length_gamestates actions nbStates, ?_⟩
  intro i hi
  rw [getD_gamestates actions nbStates i hi]
  constructor
  · simp
  · intro k hk
    have hk2 : k < ((List.range nbStates).map
        (fun k => actions.getD (i - k) dfltAction)).length := by
      simpa using hk
    rw [List.getD_eq_getElem _ _ hk2]
    simp

/-- Witness for C1: in a two-action game with window 3, the gamestate of the
second action is fully padded and its two-back entry is the first action. -/
theorem gamestates_correct_witness :
    ((gamestates [exPass 10 0, exPass 10 1] 3).getD 1 []).getD 2 dfltAction =
      exPass 10 0 := by
  have h := (gamestates_correct [exPass 10 0, exPass 10 1] 3).2 1 (by decide)
  have h2 := h.2 2 (by decide)
  simpa using h2

theorem mirrorAction_mirrorAction (a : Action) : mirrorAction (mirrorAction a) = a := by
  cases a
  simp [mirrorAction, sub_sub_cancel]

theorem attacksRight_mirrorAction (homeTeamId : Nat) (a : Action) :
    attacksRight homeTeamId (mirrorAction a) = attacksRight homeTeamId a := rfl

theorem leftToRightAction_invol (homeTeamId : Nat) (a : Action) :
    leftToRightAction homeTeamId (leftToRightAction homeTeamId a) = a := by
  by_cases hA : attacksRight homeTeamId a
  · simp [leftToRightAction, hA]
  · simp [leftToRightAction, hA, attacksRight_mirrorAction,
      mirrorAction_mirrorAction]

/-- C6: applying left-to-right normalization twice (the side assignment
reverses and then reverses back) returns every action of every gamestate to
its original coordinates. -/
theorem play_left_to_right_invol (gs : List (List Action)) (homeTeamId : Nat) :
    play_left_to_right (play_left_to_right gs homeTeamId) homeTeamId = gs := by
  unfold play_left_to_right
  rw [List.map_map]
  have hw : ∀ w : List Action,
      ((fun w => List.map (leftToRightAction homeTeamId) w) ∘
        fun w => List.map (leftToRightAction homeTeamId) w) w = w := by
    intro w
    simp only [Function.comp_apply, List.map_map]
    have : ∀ a ∈ w, (leftToRightAction homeTeamId ∘ leftToRightAction homeTeamId) a = id a := by
      intro a _
      simp [leftToRightAction_invol]
    rw [List.map_congr_left this, List.map_id]
  calc gs.map ((fun w => List.map (leftToRightAction homeTeamId) w) ∘
        fun w => List.map (leftToRightAction homeTeamId) w)
      = gs.map id := List.map_congr_left (fun w _ => hw w)
    _ = gs := List.map_id gs

/-- C7: deriving the human-readable names of an action's type, result and
bodypart codes and mapping each name back recovers the original code, and
within each enumeration the code-to-name mapping is a bijection. -/
theorem add_names_roundtrip :
    (∀ a : Action,
      actiontypeFromName (((addNames a).type_name).getD "") = some a.action_type ∧
      resultFromName (((addNames a).result_name).getD "") = some a.result ∧
      bodypartFromName (((addNames a).bodypart_name).getD "") = some a.bodypart) ∧
    (∀ c c' : ActionType, actiontypeName c = actiontypeName c' ↔ c = c') ∧
    (∀ c c' : ActResult, resultName c = resultName c' ↔ c = c') ∧
    (∀ c c' : Bodypart, bodypartName c = bodypartName c' ↔ c = c') := by
  refine ⟨?_, ?_, ?_, ?_⟩
  · intro a
    refine ⟨?_, ?_, ?_⟩
    · show actiontypeFromName (actiontypeName a.action_type) = some a.action_type
      cases a.action_type <;> rfl
    · show resultFromName (resultName a.result) = some a.result
      cases a.result <;> rfl
    · show bodypartFromName (bodypartName a.bodypart) = some a.bodypart
      cases a.bodypart <;> rfl
  · intro c c'
    cases c <;> cases c' <;> decide
  · intro c c'
    cases c <;> cases c' <;> decide
  · intro c c'
    cases c <;> cases c' <;> decide

theorem goalscoreGo_length (teamA : Nat) (l : List Action) :
    ∀ ga gb, (goalscoreGo teamA ga gb l).length = l.length := by
  induction l with
  | nil => intro ga gb; simp [goalscoreGo]
  | cons a rest ih => intro ga gb; simp [goalscoreGo, ih]

@[simp]
theorem length_goalscore (l : List Action) : (goalscore l).length = l.length :=
  goalscoreGo_length _ l 0 0

/-- C2: for every game, the feature matrix and the label matrix produced by
the notebook's per-game pipeline have exactly one row per action of the
game's action table — no row is filtered out on either side. -/
theorem row_alignment (actions : List Action) (homeTeamId : Nat) :
    (computeFeaturesGame actions homeTeamId).length = actions.length ∧
    (computeLabelsGame actions).length = actions.length := by
  constructor
  · simp [computeFeaturesGame, featureMatrix, play_left_to_right]
  · simp [computeLabelsGame, labelMatrix]

theorem getElem_congr_idx (l : List Action) (n1 n2 : Nat) (h1 : n1 < l.length)
    (h2 : n2 < l.length) (h : n1 = n2) : l[n1] = l[n2] := by
  subst h
  rfl

/-- C3: the `scores` label column has one entry per action, and its entry at
`i` is true exactly when a goal credited to the acting team of action `i`
(own goals credited to the benefiting team) occurs among the at most 10
actions following action `i`; the lookahead never passes the last action of
the game. -/
theorem scores_spec (l : List Action) (i : Nat) (hi : i < l.length) :
    (scoresCol l).length = l.length ∧
    ((scoresCol l).getD i false = true ↔
      ∃ j, i < j ∧ j ≤ i + scoresWindowSize ∧
        ∃ hj : j < l.length,
          creditsTeam (l.getD i dfltAction).team_id l[j] = true) := by
  constructor
  · simp [scoresCol]
  · have hlen : i < (scoresCol l).length := by simpa [scoresCol] using hi
    have hgd : (scoresCol l).getD i false = scoresAt l i := by
      rw [List.getD_eq_getElem _ _ hlen]
      simp [scoresCol]
    rw [hgd]
    unfold scoresAt
    rw [List.any_eq_true]
    constructor
    · rintro ⟨x, hx, hpx⟩
      rw [List.mem_iff_getElem] at hx
      obtain ⟨m, hm, hxm⟩ := hx
      have hmlen : m < scoresWindowSize ⊓ (l.length - (i + 1)) := by
        simpa [List.length_take, List.length_drop] using hm
      have hmw : m < scoresWindowSize := lt_of_lt_of_le hmlen inf_le_left
      have hmr : m < l.length - (i + 1) := lt_of_lt_of_le hmlen inf_le_right
      have hj : i + 1 + m < l.length := by omega
      refine ⟨i + 1 + m, by omega, by omega, hj, ?_⟩
      rw [List.getElem_take, List.getElem_drop] at hxm
      rw [hxm]
      exact hpx
    · rintro ⟨j, hij, hjw, hj, hcred⟩
      have hm : j - (i + 1) < ((l.drop (i + 1)).take scoresWindowSize).length := by
        simp only [List.length_take, List.length_drop]
        omega
      refine ⟨l[j], ?_, hcred⟩
      rw [List.mem_iff_getElem]
      refine ⟨j - (i + 1), hm, ?_⟩
      rw [List.getElem_take, List.getElem_drop]
      exact getElem_congr_idx l _ _ (by omega) hj (by omega)

/-- Witness for C3: in a two-action game where the second action is a goal by
the acting team of the first, the `scores` label of the first action is
true. -/
theorem scores_spec_witness :
    (scoresCol [exPass 10 0, exGoal 10 1]).getD 0 false = true := by
  refine (scores_spec [exPass 10 0, exGoal 10 1] 0 (by decide)).2.mpr ?_
  exact ⟨1, by decide, by decide, by decide, by decide⟩

theorem creditsTeam_swap (tA tB : Nat) (h : tA ≠ tB) (x : Action)
    (hx : x.team_id = tA ∨ x.team_id = tB) :
    creditsTeam tB x = creditsOpp tA x ∧ creditsOpp tB x = creditsTeam tA x := by
  have hAB : (tA == tB) = false := beq_eq_false_iff_ne.mpr h
  have hBA : (tB == tA) = false := beq_eq_false_iff_ne.mpr (Ne.symm h)
  rcases hx with hx | hx <;>
    constructor <;>
      simp [creditsTeam, creditsOpp, hx, hAB, hBA]

theorem countP_swap (tA tB : Nat) (h : tA ≠ tB) (pre : List Action)
    (hpre : ∀ x ∈ pre, x.team_id = tA ∨ x.team_id = tB) :
    pre.countP (creditsTeam tB) = pre.countP (creditsOpp tA) ∧
    pre.countP (creditsOpp tB) = pre.countP (creditsTeam tA) := by
  constructor
  · exact List.countP_congr
      (fun x hx => by rw [(creditsTeam_swap tA tB h x (hpre x hx)).1])
  · exact List.countP_congr
      (fun x hx => by rw [(creditsTeam_swap tA tB h x (hpre x hx)).2])

theorem goalscoreGo_spec (tA tB : Nat) (hne : tA ≠ tB) (l : List Action) :
    ∀ (pre : List Action),
      (∀ x ∈ pre, x.team_id = tA ∨ x.team_id = tB) →
      (∀ x ∈ l, x.team_id = tA ∨ x.team_id = tB) →
      ∀ i, i < l.length →
        (goalscoreGo tA (pre.countP (creditsTeam tA)) (pre.countP (creditsOpp tA)) l).getD i 0 =
          diffFor (l.getD i dfltAction).team_id (pre ++ l.take i) := by
  induction l with
  | nil =>
    intro pre _ _ i hi
    exact absurd hi (by simp)
  | cons a rest ih =>
    intro pre hpre hl i hi
    cases i with
    | zero =>
      simp only [goalscoreGo, List.getD_cons_zero, List.take_zero, List.append_nil]
      by_cases ht : a.team_id = tA
      · simp [ht, diffFor]
      · have htB : a.team_id = tB := (hl a (by simp)).resolve_left ht
        have hsw := countP_swap tA tB hne pre hpre
        simp [htB, beq_eq_false_iff_ne.mpr (Ne.symm hne), diffFor, hsw.1, hsw.2]
    | succ m =>
      have hpre2 : ∀ x ∈ pre ++ [a], x.team_id = tA ∨ x.team_id = tB := by
        intro x hx
        rcases List.mem_append.mp hx with hx | hx
        · exact hpre x hx
        · have : x = a := by simpa using hx
          subst this
          exact hl x (by simp)
      have hrest : ∀ x ∈ rest, x.team_id = tA ∨ x.team_id = tB := by
        intro x hx
        exact hl x (by simp [hx])
      have hmi : m < rest.length := by simpa using hi
      have happ1 : pre.countP (creditsTeam tA) + (if creditsTeam tA a then 1 else 0) =
          (pre ++ [a]).countP (creditsTeam tA) := by
        rw [List.countP_append]
        simp [List.countP_cons]
      have happ2 : pre.countP (creditsOpp tA) + (if creditsOpp tA a then 1 else 0) =
          (pre ++ [a]).countP (creditsOpp tA) := by
        rw [List.countP_append]
        simp [List.countP_cons]
      simp only [goalscoreGo, List.getD_cons_succ]
      rw [happ1, happ2, ih (pre ++ [a]) hpre2 hrest m hmi]
      simp [List.take_succ_cons, List.append_assoc]

theorem isGoalAct_not_own (a : Action) :
    ¬(isGoalAct a = true ∧ isOwnGoalAct a = true) := by
  rintro ⟨hg, ho⟩
  simp [isGoalAct] at hg
  simp [isOwnGoalAct] at ho
  rw [hg.2] at ho
  exact ActResult.noConfusion ho

theorem credits_excl (t : Nat) (a : Action) (hs : scoringAction a = true) :
    (creditsTeam t a = true ∧ creditsOpp t a = false) ∨
    (creditsTeam t a = false ∧ creditsOpp t a = true) := by
  simp only [scoringAction, Bool.or_eq_true] at hs
  rcases hs with hg | ho
  · have ho2 : isOwnGoalAct a = false := by
      cases hoo : isOwnGoalAct a
      · rfl
      · exact absurd ⟨hg, hoo⟩ (isGoalAct_not_own a)
    cases he : (a.team_id == t)
    · right
      constructor <;> simp [creditsTeam, creditsOpp, hg, ho2, he]
    · left
      constructor <;> simp [creditsTeam, creditsOpp, hg, ho2, he]
  · have hg2 : isGoalAct a = false := by
      cases hgg : isGoalAct a
      · rfl
      · exact absurd ⟨hgg, ho⟩ (isGoalAct_not_own a)
    cases he : (a.team_id == t)
    · left
      constructor <;> simp [creditsTeam, creditsOpp, hg2, ho, he]
    · right
      constructor <;> simp [creditsTeam, creditsOpp, hg2, ho, he]

theorem diffFor_take_succ (l : List Action) (i : Nat) (hi : i < l.length)
    (hs : scoringAction (l.getD i dfltAction) = true) (t : Nat) :
    diffFor t (l.take (i + 1)) = diffFor t (l.take i) + 1 ∨
    diffFor t (l.take (i + 1)) = diffFor t (l.take i) - 1 := by
  have hgd : l.getD i dfltAction = l[i] := List.getD_eq_getElem l dfltAction hi
  have htake : l.take (i + 1) = l.take i ++ [l[i]] := by
    rw [List.take_succ, List.getElem?_eq_getElem hi]
    rfl
  rw [hgd] at hs
  rcases credits_excl t l[i] hs with ⟨h1, h2⟩ | ⟨h1, h2⟩
  · left
    unfold diffFor
    rw [htake, List.countP_append, List.countP_append]
    simp [List.countP_cons, h1, h2]
    ring
  · right
    unfold diffFor
    rw [htake, List.countP_append, List.countP_append]
    simp [List.countP_cons, h1, h2]
    ring

/-- C4: for a two-team game, the `goalscore` value at every action equals the
running goal differential of that action's acting team over all strictly
prior actions (own goals credited to the opponent), and after any
goal-scoring action the differential of any team changes by exactly plus or
minus one relative to its value at the immediately preceding action. -/
theorem goalscore_correct (actions : List Action) (tB : Nat)
    (htwo : ∀ a ∈ actions,
      a.team_id = (actions.getD 0 dfltAction).team_id ∨ a.team_id = tB)
    (i : Nat) (hi : i < actions.length) :
    (goalscore actions).getD i 0 =
      diffFor (actions.getD i dfltAction).team_id (actions.take i) ∧
    (scoringAction (actions.getD i dfltAction) = true →
      ∀ t, diffFor t (actions.take (i + 1)) = diffFor t (actions.take i) + 1 ∨
        diffFor t (actions.take (i + 1)) = diffFor t (actions.take i) - 1) := by
  constructor
  · set tA := (actions.getD 0 dfltAction).team_id with htA
    by_cases hAB : tA = tB
    · have htwo2 : ∀ x ∈ actions, x.team_id = tA ∨ x.team_id = tA + 1 := by
        intro x hx
        rcases htwo x hx with h | h
        · exact Or.inl h
        · exact Or.inl (by rw [h, ← hAB])
      exact goalscoreGo_spec tA (tA + 1) (by omega) actions [] (by simp) htwo2 i hi
    · exact goalscoreGo_spec tA tB hAB actions [] (by simp) htwo i hi
  · intro hs t
    exact diffFor_take_succ actions i hi hs t

/-- Witness for C4: in a concrete two-action game whose first action is a
goal, the `goalscore` of the second action is the differential one. -/
theorem goalscore_correct_witness :
    (goalscore [exGoal 10 0, exPass 10 1]).getD 1 0 = 1 := by
  have h := (goalscore_correct [exGoal 10 0, exPass 10 1] 20 (by decide) 1 (by decide)).1
  rw [h]
  decide

theorem getD_map_addNames (l : List Action) (n : Nat) (h : n < l.length) :
    (l.map addNames).getD n dfltAction = addNames (l.getD n dfltAction) := by
  rw [List.getD_eq_getElem _ _ (by simpa using h), List.getD_eq_getElem _ _ h,
    List.getElem_map]

theorem gamestates_map_addNames (l : List Action) (nb : Nat) :
    gamestates (l.map addNames) nb = (gamestates l nb).map (List.map addNames) := by
  unfold gamestates
  rw [List.length_map, List.map_map]
  refine List.map_congr_left ?_
  intro i hi
  rw [List.mem_range] at hi
  simp only [Function.comp_apply, List.map_map]
  refine List.map_congr_left ?_
  intro k _
  simp only [Function.comp_apply]
  exact getD_map_addNames l (i - k) (by omega)

theorem mirrorAction_addNames (a : Action) :
    mirrorAction (addNames a) = addNames (mirrorAction a) := by
  cases a
  rfl

theorem leftToRightAction_addNames (homeTeamId : Nat) (a : Action) :
    leftToRightAction homeTeamId (addNames a) = addNames (leftToRightAction homeTeamId a) := by
  have hatt : attacksRight homeTeamId (addNames a) = attacksRight homeTeamId a := rfl
  by_cases hA : attacksRight homeTeamId a
  · simp [leftToRightAction, hatt, hA]
  · simp [leftToRightAction, hatt, hA, mirrorAction_addNames]

theorem play_left_to_right_map_addNames (gs : List (List Action)) (homeTeamId : Nat) :
    play_left_to_right (gs.map (List.map addNames)) homeTeamId =
      (play_left_to_right gs homeTeamId).map (List.map addNames) := by
  unfold play_left_to_right
  rw [List.map_map, List.map_map]
  refine List.map_congr_left ?_
  intro w _
  simp only [Function.comp_apply, List.map_map]
  refine List.map_congr_left ?_
  intro a _
  simp only [Function.comp_apply]
  exact leftToRightAction_addNames homeTeamId a

theorem featureRow_map_addNames : ∀ w : List Action, featureRow (w.map addNames) = featureRow w
  | [] => rfl
  | [_] => rfl
  | [_, _] => rfl
  | _ :: _ :: _ :: _ => rfl

/-- Agreement on the fields that goal accounting reads. -/
def coreSame (a b : Action) : Prop :=
  a.team_id = b.team_id ∧ a.action_type = b.action_type ∧ a.result = b.result

theorem credits_coreSame (t : Nat) (a b : Action) (h : coreSame a b) :
    creditsTeam t a = creditsTeam t b ∧ creditsOpp t a = creditsOpp t b := by
  obtain ⟨h1, h2, h3⟩ := h
  unfold creditsTeam creditsOpp isGoalAct isOwnGoalAct
  rw [h1, h2, h3]
  exact ⟨rfl, rfl⟩

theorem goalscoreGo_congr (tA : Nat) :
    ∀ {l1 l2 : List Action}, List.Forall₂ coreSame l1 l2 →
      ∀ ga gb, goalscoreGo tA ga gb l1 = goalscoreGo tA ga gb l2 := by
  intro l1 l2 h
  induction h with
  | nil => intro ga gb; rfl
  | @cons a b t1 t2 hab htail ih =>
    intro ga gb
    have hc := credits_coreSame tA a b hab
    simp only [goalscoreGo, hab.1, hc.1, hc.2]
    rw [ih]

theorem goalscore_congr {l1 l2 : List Action} (h : List.Forall₂ coreSame l1 l2) :
    goalscore l1 = goalscore l2 := by
  cases h with
  | nil => rfl
  | @cons a b t1 t2 hab htail =>
    unfold goalscore
    have hhead : ((a :: t1).getD 0 dfltAction).team_id = ((b :: t2).getD 0 dfltAction).team_id := by
      simpa using hab.1
    rw [hhead]
    exact goalscoreGo_congr _ (List.Forall₂.cons hab htail) 0 0

theorem heads_coreSame (ws : List (List Action)) :
    List.Forall₂ coreSame
      ((ws.map (List.map addNames)).map (fun w => w.getD 0 dfltAction))
      (ws.map (fun w => w.getD 0 dfltAction)) := by
  induction ws with
  | nil => exact List.Forall₂.nil
  | cons w t ih =>
    refine List.Forall₂.cons ?_ ih
    cases w with
    | nil => exact ⟨rfl, rfl, rfl⟩
    | cons a t2 => exact ⟨rfl, rfl, rfl⟩

theorem featureMatrix_map_addNames (ws : List (List Action)) :
    featureMatrix (ws.map (List.map addNames)) = featureMatrix ws := by
  unfold featureMatrix
  rw [goalscore_congr (heads_coreSame ws)]
  generalize goalscore (ws.map (fun w => w.getD 0 dfltAction)) = G
  induction ws generalizing G with
  | nil => rfl
  | cons w t ih =>
    cases G with
    | nil => rfl
    | cons g gt =>
      simp only [List.map_cons, List.zip_cons_cons]
      rw [featureRow_map_addNames w]
      rw [ih gt]

theorem getD_map_addNames_team (l : List Action) (i : Nat) :
    ((l.map addNames).getD i dfltAction).team_id = (l.getD i dfltAction).team_id := by
  rcases Nat.lt_or_ge i l.length with h | h
  · rw [getD_map_addNames l i h]
    rfl
  · rw [List.getD_eq_default _ _ (by simpa using h), List.getD_eq_default _ _ h]

theorem getD_map_addNames_goal (l : List Action) (i : Nat) :
    isGoalAct ((l.map addNames).getD i dfltAction) = isGoalAct (l.getD i dfltAction) := by
  rcases Nat.lt_or_ge i l.length with h | h
  · rw [getD_map_addNames l i h]
    rfl
  · rw [List.getD_eq_default _ _ (by simpa using h), List.getD_eq_default _ _ h]

theorem creditsTeam_comp_addNames (t : Nat) : creditsTeam t ∘ addNames = creditsTeam t := by
  funext x
  rfl

theorem creditsOpp_comp_addNames (t : Nat) : creditsOpp t ∘ addNames = creditsOpp t := by
  funext x
  rfl

theorem scoresAt_map_addNames (l : List Action) (i : Nat) :
    scoresAt (l.map addNames) i = scoresAt l i := by
  unfold scoresAt
  rw [getD_map_addNames_team, ← List.map_drop, ← List.map_take, List.any_map,
    creditsTeam_comp_addNames]

theorem concedesAt_map_addNames (l : List Action) (i : Nat) :
    concedesAt (l.map addNames) i = concedesAt l i := by
  unfold concedesAt
  rw [getD_map_addNames_team, ← List.map_drop, ← List.map_take, List.any_map,
    creditsOpp_comp_addNames]

theorem labelMatrix_map_addNames (l : List Action) :
    labelMatrix (l.map addNames) = labelMatrix l := by
  unfold labelMatrix
  rw [List.length_map]
  refine List.map_congr_left ?_
  intro i _
  rw [scoresAt_map_addNames, concedesAt_map_addNames]
  unfold goalFromShotAt
  rw [getD_map_addNames_goal]

/-- C9: the feature matrix and the label matrix computed from the
name-annotated actions coincide with those computed from the bare actions:
the human-readable name columns are not required for the correctness of any
feature or label function. -/
theorem add_names_not_required (actions : List Action) (homeTeamId : Nat) :
    featureMatrix (play_left_to_right (gamestates (actions.map addNames) 3) homeTeamId) =
      featureMatrix (play_left_to_right (gamestates actions 3) homeTeamId) ∧
    labelMatrix (actions.map addNames) = labelMatrix actions := by
  constructor
  · rw [gamestates_map_addNames, play_left_to_right_map_addNames,
      featureMatrix_map_addNames]
  · exact labelMatrix_map_addNames actions

/-- C10: the label matrix of the per-game pipeline is computed from the raw
action table — left-to-right normalization happens only on the feature side —
so the labels are identical for any two home-team side assignments. -/
theorem labels_ignore_home_team (actions : List Action) (h1 h2 : Nat) :
    (processGame actions h1).2 = (processGame actions h2).2 := rfl

theorem convertGo_ok (g : Game) :
    ∀ (l : List RawEvent) (s : Nat) (out : List Action),
      convertGo g s l = Except.ok out →
      out.length = l.length ∧
      ∀ i, ∀ hi : i < l.length, ∀ ho : i < out.length,
        convertEvent g (s + i) l[i] = Except.ok out[i] := by
  intro l
  induction l with
  | nil =>
    intro s out h
    simp [convertGo] at h
    subst h
    refine ⟨rfl, ?_⟩
    intro i hi ho
    exact absurd hi (by simp)
  | cons e rest ih =>
    intro s out h
    cases hce : convertEvent g s e with
    | error err => simp [convertGo, hce] at h
    | ok a =>
      cases hco : convertGo g (s + 1) rest with
      | error err => simp [convertGo, hce, hco] at h
      | ok as =>
        simp [convertGo, hce, hco] at h
        obtain ⟨ihlen, ihspec⟩ := ih (s + 1) as hco
        subst h
        constructor
        · simp [ihlen]
        · intro i hi ho
          cases i with
          | zero => simpa using hce
          | succ m =>
            have hm : m < rest.length := by simpa using hi
            have hmo : m < as.length := by omega
            have := ihspec m hm hmo
            have harith : s + 1 + m = s + (m + 1) := by omega
            rw [harith] at this
            simpa using this

theorem convertEvent_ok_fields (g : Game) (i : Nat) (e : RawEvent) (a : Action)
    (h : convertEvent g i e = Except.ok a) :
    a.action_id = i ∧ a.period_id = e.period_id ∧ a.time_seconds = e.time_seconds := by
  unfold convertEvent at h
  cases ht : typeFromCode e.type_code <;> rw [ht] at h
  · simp at h
  cases hr : resultFromCode e.result_code <;> rw [hr] at h
  · simp at h
  cases hb : bodypartFromCode e.bodypart_code <;> rw [hb] at h
  · simp at h
  cases hp : e.player_id <;> rw [hp] at h
  · simp at h
  cases hcb : (coordInBounds e.start_x e.start_y && coordInBounds e.end_x e.end_y) <;>
    rw [hcb] at h
  · simp at h
  · simp at h
    subst h
    exact ⟨rfl, rfl, rfl⟩

/-- C5: for every successfully converted game, `action_id` is the dense
zero-based index of every action — `action_id` at position `i` equals `i`
for all `i < n`, hence the sequence is exactly `0..n-1` and strictly
increasing — and the position order is consistent with the chronological
`(period_id, time_seconds)` order. -/
theorem convert_dense_chron (g : Game) (events : List RawEvent) (actions : List Action)
    (h : convert g events = Except.ok actions) :
    (∀ i, i < actions.length → (actions.getD i dfltAction).action_id = i) ∧
    (∀ i j, i < actions.length → j < actions.length → i < j →
      actionChron (actions.getD i dfltAction) (actions.getD j dfltAction)) := by
  obtain ⟨hlen, hspec⟩ := convertGo_ok g (sortEvents events) 0 actions h
  constructor
  · intro i hi
    have hi2 : i < (sortEvents events).length := by omega
    rw [List.getD_eq_getElem _ _ hi]
    obtain ⟨hidi, -, -⟩ := convertEvent_ok_fields g (0 + i) _ _ (hspec i hi2 hi)
    simpa using hidi
  · intro i j hi hj hij
    have hi2 : i < (sortEvents events).length := by omega
    have hj2 : j < (sortEvents events).length := by omega
    rw [List.getD_eq_getElem _ _ hi, List.getD_eq_getElem _ _ hj]
    obtain ⟨-, hpi, hti⟩ := convertEvent_ok_fields g (0 + i) _ _ (hspec i hi2 hi)
    obtain ⟨-, hpj, htj⟩ := convertEvent_ok_fields g (0 + j) _ _ (hspec j hj2 hj)
    have hsort := List.sorted_insertionSort evBefore events
    have hrel : evBefore ((sortEvents events).get ⟨i, hi2⟩) ((sortEvents events).get ⟨j, hj2⟩) :=
      hsort.rel_get_of_lt (by exact Fin.mk_lt_mk.mpr hij)
    simp only [List.get_eq_getElem] at hrel
    unfold actionChron
    unfold evBefore at hrel
    rw [hpi, hpj, hti, htj]
    exact hrel

/-- Witness for C5: converting two concrete events given in reverse
chronological order yields actions whose `action_id` is the dense index at
every position, the last one included, and whose order agrees with
(period, time). -/
theorem convert_dense_chron_witness :
    (exConverted.getD 0 dfltAction).action_id = 0 ∧
    (exConverted.getD 1 dfltAction).action_id = 1 ∧
    actionChron (exConverted.getD 0 dfltAction) (exConverted.getD 1 dfltAction) := by
  have h := convert_dense_chron exGame [exEvent 1 2, exEvent 1 1] exConverted rfl
  exact ⟨h.1 0 (by decide), h.1 1 (by decide),
    h.2 0 1 (by decide) (by decide) (by decide)⟩

theorem convertEvent_error_of_invalid (g : Game) (i : Nat) (e : RawEvent)
    (h : isValidEvent e = false) : ∃ err, convertEvent g i e = Except.error err := by
  unfold convertEvent
  cases ht : typeFromCode e.type_code with
  | none => exact ⟨_, rfl⟩
  | some t =>
    cases hr : resultFromCode e.result_code with
    | none => exact ⟨_, rfl⟩
    | some r =>
      cases hb : bodypartFromCode e.bodypart_code with
      | none => exact ⟨_, rfl⟩
      | some b =>
        cases hp : e.player_id with
        | none => exact ⟨_, rfl⟩
        | some pid =>
          cases hcb : (coordInBounds e.start_x e.start_y &&
              coordInBounds e.end_x e.end_y) with
          | false =>
            refine ⟨SchemaViolation.mk g.game_id i "coordinate out of range", ?_⟩
            simp
          | true =>
            exfalso
            have hcb2 := hcb
            rw [Bool.and_eq_true] at hcb2
            obtain ⟨hc1, hc2⟩ := hcb2
            simp [isValidEvent, ht, hr, hb, hp, hc1, hc2] at h

theorem convertGo_error_of_invalid (g : Game) :
    ∀ (l : List RawEvent) (s : Nat), (∃ e ∈ l, isValidEvent e = false) →
      ∃ err, convertGo g s l = Except.error err := by
  intro l
  induction l with
  | nil =>
    rintro s ⟨e, he, _⟩
    exact absurd he (List.not_mem_nil e)
  | cons a rest ih =>
    rintro s ⟨e, he, hbad⟩
    rcases List.mem_cons.mp he with rfl | he2
    · obtain ⟨err, herr⟩ := convertEvent_error_of_invalid g s e hbad
      exact ⟨err, by simp [convertGo, herr]⟩
    · cases hce : convertEvent g s a with
      | error err => exact ⟨err, by simp [convertGo, hce]⟩
      | ok a2 =>
        obtain ⟨err, herr⟩ := ih (s + 1) ⟨e, he2, hbad⟩
        exact ⟨err, by simp [convertGo, hce, herr]⟩

/-- C8: the conversion never silently drops an event — a successful
conversion has exactly one action per input event — and whenever some event
carries an unmapped enum code, an out-of-range coordinate or a missing
required field, the whole game's conversion fails with a `SchemaViolation`
error, producing no partial output. -/
theorem convert_rejects_invalid (g : Game) (events : List RawEvent) :
    (∀ actions, convert g events = Except.ok actions → actions.length = events.length) ∧
    ((∃ e ∈ events, isValidEvent e = false) → ∃ err, convert g events = Except.error err) := by
  constructor
  · intro actions h
    have hlen := (convertGo_ok g (sortEvents events) 0 actions h).1
    rw [hlen]
    exact List.length_insertionSort evBefore events
  · rintro ⟨e, he, hbad⟩
    have he2 : e ∈ sortEvents events :=
      ((List.perm_insertionSort evBefore events).mem_iff).mpr he
    exact convertGo_error_of_invalid g (sortEvents events) 0 ⟨e, he2, hbad⟩

/-- Witness for C8: converting a concrete event with an unmapped action-type
code produces no output at all. -/
theorem convert_rejects_invalid_witness :
    (convert exGame [exBadEvent]).toOption = none := by
  obtain ⟨err, herr⟩ :=
    (convert_rejects_invalid exGame [exBadEvent]).2 ⟨exBadEvent, by simp, by decide⟩
  rw [herr]
  rfl

end Spadl
